import Mathlib

/-!
Verification of the OpenThread CLI UDP module (`src/cli/cli_udp.cpp`).

The module is embedded shallowly: messages are byte lists, the single UDP
socket session is an explicit record, transport-layer collaborators
(`otUdpOpen`, `otMessageAppend`, ...) are modelled from the specification's
collaborator interface (section 6) with explicit result oracles, and every
handler of `UdpExample` becomes a Lean function that returns its `otError`
together with its observable effects (output lines, transport calls,
message ownership events).
-/

set_option maxRecDepth 8000

namespace OtCli

/-- Error codes of the embedded CLI module, mirroring the `otError` values
appearing in `cli_udp.cpp`: `OT_ERROR_NONE`, `OT_ERROR_INVALID_ARGS`,
`OT_ERROR_INVALID_COMMAND`, `OT_ERROR_ALREADY`, `OT_ERROR_NO_BUFS`,
`OT_ERROR_PENDING`, `OT_ERROR_PARSE`; `failed` stands for any other
transport-layer failure propagated verbatim. -/
inductive OtError where
  | none
  | invalidArgs
  | invalidCommand
  | already
  | noBufs
  | pending
  | parse
  | failed
deriving DecidableEq, Repr

/-- Bytes of a token, as the C code reads them through `Arg::GetCString`. -/
def strBytes (s : String) : List Nat :=
  s.data.map Char.toNat

/-- Render a byte list as text, as printing a NUL-terminated buffer does. -/
def natsToString (l : List Nat) : String :=
  String.mk (l.map Char.ofNat)

/-- Modelled from the spec: the transport collaborator
`appendBytes(message, bytes) -> result` (`otMessageAppend`, declared in
`openthread/message.h`, not under `src/`): it either appends all bytes to the
message or fails with `OutOfBuffers`; `cap` is the message buffer capacity. -/
def otMessageAppend (cap : Nat) (msg bytes : List Nat) : Except OtError (List Nat) :=
  if msg.length + bytes.length ≤ cap then .ok (msg ++ bytes) else .error .noBufs

/-- Successor of the payload character, as the `switch` in
`UdpExample::PrepareAutoGeneratedPayload`: `'9' → 'A'`, `'Z' → 'a'`,
`'z' → '0'`, otherwise the next character code. -/
def nextAutoChar (c : Nat) : Nat :=
  if c = 57 then 65
  else if c = 90 then 97
  else if c = 122 then 48
  else c + 1

/-- Loop of `UdpExample::PrepareAutoGeneratedPayload`: append one byte per
iteration starting from character `c`, advancing via `nextAutoChar`, and stop
with the append error (message left as is) if an append fails. -/
def prepareAutoGeneratedPayloadFrom (cap : Nat) (msg : List Nat) (c : Nat) :
    Nat → OtError × List Nat
  | 0 => (.none, msg)
  | n + 1 =>
    match otMessageAppend cap msg [c] with
    | .error e => (e, msg)
    | .ok m => prepareAutoGeneratedPayloadFrom cap m (nextAutoChar c) n

/-- `UdpExample::PrepareAutoGeneratedPayload`: the source initialises the
character to `'0'` (code 48). -/
def prepareAutoGeneratedPayload (cap : Nat) (msg : List Nat) (len : Nat) :
    OtError × List Nat :=
  prepareAutoGeneratedPayloadFrom cap msg 48 len

/-- The character sequence described by the spec, unrolled from a start
character: specification-side mirror of the generation loop. -/
def autoSeqFrom (c : Nat) : Nat → List Nat
  | 0 => []
  | n + 1 => c :: autoSeqFrom (nextAutoChar c) n

/-- The 62-character alphabet `0-9`, `A-Z`, `a-z` of the spec's cycle. -/
def autoAlphabet : List Nat :=
  (List.range 10).map (fun i => 48 + i) ++ (List.range 26).map (fun i => 65 + i)
    ++ (List.range 26).map (fun i => 97 + i)

/-- Byte `i` of the spec's cyclic payload sequence: position `i % 62` in the
alphabet `0-9, A-Z, a-z`. -/
def cycleByte (i : Nat) : Nat := autoAlphabet.getD (i % 62) 0

/-- Value of a hex-digit character code (`0-9`, `A-F`, `a-f`), or `none`
for a non-hex character. Part of the hex-segment decoder modelled below. -/
def hexVal (b : Nat) : Option Nat :=
  if 48 ≤ b ∧ b ≤ 57 then some (b - 48)
  else if 65 ≤ b ∧ b ≤ 70 then some (b - 55)
  else if 97 ≤ b ∧ b ≤ 102 then some (b - 87)
  else none

/-- Decode a character-code list as consecutive hex-digit pairs; fails on an
odd number of digits or a non-hex character. Part of the hex-segment decoder
modelled below. -/
def decodePairs : List Nat → Option (List Nat)
  | [] => some []
  | [_] => Option.none
  | a :: b :: rest =>
    match hexVal a, hexVal b, decodePairs rest with
    | some x, some y, some bs => some ((16 * x + y) :: bs)
    | _, _, _ => Option.none

/-- Modelled from the spec: `Utils::CmdLineParser::ParseAsHexStringSegment`
(declared in `utils/parse_cmdline`, not under `src/`), with the 50-byte
segment buffer of `PrepareHexStringPaylod`. On a remaining string of more
than 100 hex characters it decodes the first 100 into 50 bytes and reports
`pending` with the rest of the string still to process; on a final segment of
at most 100 characters it decodes everything and reports success; an odd
number of hex digits or a non-hex character in the current segment is a
parse failure that yields no bytes. -/
def parseAsHexStringSegment (s : List Nat) : OtError × List Nat × List Nat :=
  if s.length > 100 then
    match decodePairs (s.take 100) with
    | some bs => (.pending, bs, s.drop 100)
    | Option.none => (.parse, [], s)
  else
    match decodePairs s with
    | some bs => (.none, bs, [])
    | Option.none => (.parse, [], s)

/-- Loop of `UdpExample::PrepareHexStringPaylod`, with explicit fuel (the
loop consumes 100 characters per iteration, so fuel `s.length + 1` never
runs out): request the next segment; a parse failure stops at once with the
message unchanged since the last successful append; otherwise append the
segment's bytes and continue until the segment parser reports completion. -/
def prepareHexLoop (cap : Nat) : Nat → List Nat → List Nat → OtError × List Nat
  | 0, msg, _ => (.failed, msg)
  | fuel + 1, msg, s =>
    match parseAsHexStringSegment s with
    | (.pending, bytes, rest) =>
      match otMessageAppend cap msg bytes with
      | .error e => (e, msg)
      | .ok m => prepareHexLoop cap fuel m rest
    | (.none, bytes, _) =>
      match otMessageAppend cap msg bytes with
      | .error e => (e, msg)
      | .ok m => (.none, m)
    | (e, _, _) => (e, msg)

/-- `UdpExample::PrepareHexStringPaylod` (source spelling): decode the hex
string in bounded segments, appending each decoded segment to the message. -/
def prepareHexStringPaylod (cap : Nat) (msg : List Nat) (s : List Nat) :
    OtError × List Nat :=
  prepareHexLoop cap (s.length + 1) msg s

/-- A hex input is malformed when its digit count is odd or some character
is not a hex digit (spec section 4.5). -/
def badHex (s : List Nat) : Prop :=
  s.length % 2 = 1 ∨ ∃ b ∈ s, hexVal b = Option.none

instance badHex_decidable (s : List Nat) : Decidable (badHex s) :=
  decidable_of_iff (s.length % 2 = 1 ∨ ∃ b ∈ s, hexVal b = Option.none) Iff.rfl

/-- Bytes decoded by the successful segment iterations that precede the
failing segment of a malformed hex string (specification-side description
used to state C6): full 100-character segments are decoded while they are
valid; the failing segment contributes nothing. -/
def goodChunksBytes : Nat → List Nat → List Nat
  | 0, _ => []
  | fuel + 1, s =>
    if s.length > 100 then
      match decodePairs (s.take 100) with
      | some bs => bs ++ goodChunksBytes fuel (s.drop 100)
      | Option.none => []
    else
      match decodePairs s with
      | some bs => bs
      | Option.none => []

/-- Bytes decoded by the segment iterations that succeed before the hex
builder fails on a malformed string. -/
def goodPrefixBytes (s : List Nat) : List Nat :=
  goodChunksBytes (s.length + 1) s

/-- Lowercasing of an ASCII character code, for case-insensitive comparison
of hex spellings. -/
def toLowerByte (b : Nat) : Nat :=
  if 65 ≤ b ∧ b ≤ 90 then b + 32 else b

/-- Hex digit character (lowercase) of a value below 16. -/
def hexDigitByte (v : Nat) : Nat :=
  if v < 10 then 48 + v else 87 + v

/-- Lowercase hex spelling (as character codes) of one byte. -/
def hexEncodeByte (n : Nat) : List Nat :=
  [hexDigitByte (n / 16), hexDigitByte (n % 16)]

/-- Lowercase hex spelling (as character codes) of a byte list. -/
def hexEncode (bs : List Nat) : List Nat :=
  (bs.map hexEncodeByte).flatten

/-- Modelled from the spec: `Arg::ParseAsUint16` (declared in
`utils/parse_cmdline`, not under `src/`): strict parse of a decimal unsigned
16-bit integer; an empty, non-numeric or out-of-range token fails with
`InvalidArguments`. -/
def parseAsUint16 (s : String) : Except OtError Nat :=
  if s.data ≠ [] ∧ s.data.all Char.isDigit then
    if s.data.foldl (fun a c => 10 * a + (c.toNat - 48)) 0 ≤ 65535 then
      .ok (s.data.foldl (fun a c => 10 * a + (c.toNat - 48)) 0)
    else .error .invalidArgs
  else .error .invalidArgs

/-- Characters that may appear in an IPv6 address literal. -/
def isIp6Char (c : Char) : Bool :=
  c.isDigit || ('a' ≤ c && c ≤ 'f') || ('A' ≤ c && c ≤ 'F') || c = ':' || c = '.'

/-- Modelled from the spec: `Arg::ParseAsIp6Address` (declared in
`utils/parse_cmdline`, not under `src/`): strict parse of an IPv6 address
literal, failing with `InvalidArguments` on a malformed token. The address
value is kept in its textual form; validity is approximated as a non-empty
token of hex digits, colons and dots containing at least one colon. -/
def parseAsIp6Address (s : String) : Except OtError String :=
  if !s.data.isEmpty && s.data.all isIp6Char && s.data.contains ':' then
    .ok s
  else .error .invalidArgs

/-- Modelled from the spec: `Interpreter::ParseEnableOrDisable` (not under
`src/`): parses a token as an enable/disable directive. -/
def parseEnableOrDisable (s : String) : Except OtError Bool :=
  if s = "enable" then .ok true
  else if s = "disable" then .ok false
  else .error .invalidArgs

/-- The callback registration that `ProcessOpen` hands to the transport:
the static `HandleUdpReceive` trampoline with the `UdpExample` session
(`this`) as its context pointer. -/
inductive RegisteredCallback where
  | handleUdpReceiveWithSessionContext
deriving DecidableEq, Repr

/-- State of the session's single UDP socket as the transport layer sees it:
whether it is open, and the receive callback registered on it. -/
structure UdpSocketState where
  isOpen : Bool
  callback : Option RegisteredCallback
deriving DecidableEq, Repr

/-- Modelled from the spec: the transport collaborator `isOpen(handle)`
(`otUdpIsOpen`, not under `src/`). -/
def otUdpIsOpen (s : UdpSocketState) : Bool := s.isOpen

/-- Modelled from the spec: the transport collaborator
`open(callback, context) -> handle` (`otUdpOpen`, not under `src/`): opens
the socket and registers the given callback on it. -/
def otUdpOpen (_s : UdpSocketState) (cb : RegisteredCallback) :
    OtError × UdpSocketState :=
  (.none, { isOpen := true, callback := some cb })

/-- `UdpExample::ProcessOpen`: arguments are unused; fails with
`OT_ERROR_ALREADY` when the socket is already open, otherwise opens the
socket via the transport, registering `HandleUdpReceive` with the session as
context. -/
def processOpen (sock : UdpSocketState) (_args : List String) :
    OtError × UdpSocketState :=
  if otUdpIsOpen sock then (.already, sock)
  else otUdpOpen sock .handleUdpReceiveWithSessionContext

/-- Results the transport collaborators return to the handlers that
propagate them verbatim (`otUdpBind`, `otUdpConnect`, `otUdpClose`). -/
structure TransportEnv where
  bindResult : OtError
  connectResult : OtError
  closeResult : OtError
deriving DecidableEq, Repr

/-- Observable outcome of an argument-validating handler: the returned
error, how many tokens were semantically parsed before returning, and
whether the transport layer was called. -/
structure HandlerOut where
  error : OtError
  parsedTokens : Nat
  transportCalled : Bool
deriving DecidableEq, Repr

/-- `UdpExample::ProcessBind`: requires exactly two arguments, parses them
strictly as an IPv6 address and a 16-bit port, then calls `otUdpBind`. -/
def processBind (env : TransportEnv) (args : List String) : HandlerOut :=
  if args.length = 2 then
    match parseAsIp6Address (args.getD 0 "") with
    | .error e => { error := e, parsedTokens := 1, transportCalled := false }
    | .ok _ =>
      match parseAsUint16 (args.getD 1 "") with
      | .error e => { error := e, parsedTokens := 2, transportCalled := false }
      | .ok _ => { error := env.bindResult, parsedTokens := 2, transportCalled := true }
  else { error := .invalidArgs, parsedTokens := 0, transportCalled := false }

/-- `UdpExample::ProcessConnect`: same argument contract as `ProcessBind`,
calling `otUdpConnect`. -/
def processConnect (env : TransportEnv) (args : List String) : HandlerOut :=
  if args.length = 2 then
    match parseAsIp6Address (args.getD 0 "") with
    | .error e => { error := e, parsedTokens := 1, transportCalled := false }
    | .ok _ =>
      match parseAsUint16 (args.getD 1 "") with
      | .error e => { error := e, parsedTokens := 2, transportCalled := false }
      | .ok _ => { error := env.connectResult, parsedTokens := 2, transportCalled := true }
  else { error := .invalidArgs, parsedTokens := 0, transportCalled := false }

/-- `UdpExample::ProcessClose`: the arguments are unused
(`OT_UNUSED_VARIABLE`); the handler unconditionally calls `otUdpClose` and
returns its result. The second component records that the transport was
called. -/
def processClose (env : TransportEnv) (_args : List String) : OtError × Bool :=
  (env.closeResult, true)

/-- `UdpExample::ProcessLinkSecurity`: with no arguments report the current
flag (one output line); otherwise parse the first argument as an
enable/disable directive and update the flag. Returns the error, the new
flag value, and the output lines. -/
def processLinkSecurity (flag : Bool) (args : List String) :
    OtError × Bool × List String :=
  match args with
  | [] => (.none, flag, [if flag then "Enabled" else "Disabled"])
  | a :: _ =>
    match parseEnableOrDisable a with
    | .ok b => (.none, b, [])
    | .error e => (e, flag, [])

/-- Oracles for one run of `ProcessSend`: whether `otUdpNewMessage`
succeeds, the capacity of the allocated message, and whether `otUdpSend`
accepts the message. -/
structure SendEnv where
  allocOk : Bool
  cap : Nat
  sendOk : Bool
deriving DecidableEq, Repr

/-- Observable outcome of `UdpExample::ProcessSend`: the returned error;
whether a message was successfully allocated; whether ownership of the
message transferred to the transport (a successful `otUdpSend`); how many
times `otMessageFree` ran; the message passed to `otUdpSend` (if reached);
and the explicit destination, `none` meaning the zero-initialised
`otMessageInfo`, i.e. the session's previously connected peer. -/
structure SendOutcome where
  error : OtError
  allocated : Bool
  transferred : Bool
  freeCalls : Nat
  sentMsg : Option (List Nat)
  peer : Option (String × Nat)
deriving DecidableEq, Repr

/-- Destination parsing of `ProcessSend` when more than two tokens are
given: the first two tokens are consumed as IPv6 address and 16-bit port. -/
def parseDest (args : List String) : Except OtError (String × Nat) :=
  match parseAsIp6Address (args.getD 0 "") with
  | .error e => .error e
  | .ok a =>
    match parseAsUint16 (args.getD 1 "") with
    | .error e => .error e
    | .ok p => .ok (a, p)

/-- Payload construction of `ProcessSend` on the freshly allocated (empty)
message, starting at token `i`: `-s <length>` builds the auto-generated
payload, `-x <hex>` the hex payload, and otherwise the token (after an
optional `-t`) is appended verbatim as text; a missing value token fails
with `InvalidArguments`. -/
def buildPayload (cap : Nat) (args : List String) (i : Nat) :
    Except OtError (List Nat) :=
  if args.getD i "" = "-s" then
    if i + 1 < args.length then
      match parseAsUint16 (args.getD (i + 1) "") with
      | .error e => .error e
      | .ok n =>
        match prepareAutoGeneratedPayload cap [] n with
        | (.none, m) => .ok m
        | (e, _) => .error e
    else .error .invalidArgs
  else if args.getD i "" = "-x" then
    if i + 1 < args.length then
      match prepareHexStringPaylod cap [] (strBytes (args.getD (i + 1) "")) with
      | (.none, m) => .ok m
      | (e, _) => .error e
    else .error .invalidArgs
  else
    if (if args.getD i "" = "-t" then i + 1 else i) < args.length then
      otMessageAppend cap []
        (strBytes (args.getD (if args.getD i "" = "-t" then i + 1 else i) ""))
    else .error .invalidArgs

/-- Tail of `ProcessSend` after destination parsing: allocate the message
(`otUdpNewMessage`), build the payload starting at token `i`, hand the
message to `otUdpSend`, and free the message on any failure after the
allocation (the `exit` label frees whenever the message pointer was not
cleared by a successful send). -/
def processSendAfterDest (env : SendEnv) (args : List String) (i : Nat)
    (peer : Option (String × Nat)) : SendOutcome :=
  if env.allocOk then
    match buildPayload env.cap args i with
    | .error e =>
      { error := e, allocated := true, transferred := false, freeCalls := 1,
        sentMsg := Option.none, peer := peer }
    | .ok m =>
      if env.sendOk then
        { error := .none, allocated := true, transferred := true, freeCalls := 0,
          sentMsg := some m, peer := peer }
      else
        { error := .failed, allocated := true, transferred := false, freeCalls := 1,
          sentMsg := some m, peer := peer }
  else
    { error := .noBufs, allocated := false, transferred := false, freeCalls := 0,
      sentMsg := Option.none, peer := peer }

/-- `UdpExample::ProcessSend`: accept 1 to 4 tokens; with more than two
tokens the first two are parsed strictly as destination address and port
before the message is allocated; then allocate, build the payload and
send. -/
def processSend (env : SendEnv) (args : List String) : SendOutcome :=
  if 1 ≤ args.length ∧ args.length ≤ 4 then
    if args.length > 2 then
      match parseDest args with
      | .error e =>
        { error := e, allocated := false, transferred := false, freeCalls := 0,
          sentMsg := Option.none, peer := Option.none }
      | .ok d => processSendAfterDest env args 2 (some d)
    else processSendAfterDest env args 0 Option.none
  else
    { error := .invalidArgs, allocated := false, transferred := false,
      freeCalls := 0, sentMsg := Option.none, peer := Option.none }

/-- Modelled from the spec: the command table `UdpExample::sCommands`
declared in `cli_udp.hpp` (not under `src/`): the seven command names of
spec section 6, in the table's declared order (sorted, as the lookup
requires). -/
def sCommands : List String :=
  ["bind", "close", "connect", "help", "linksecurity", "open", "send"]

/-- `UdpExample::ProcessHelp`: arguments are unused; print each command
name of the table on its own line, in table order, and succeed. -/
def processHelp (_args : List String) : OtError × List String :=
  (.none, sCommands)

/-- `Utils::LookupTable::Find` over `sCommands`: first exact (case
sensitive) match of the command name. -/
def lookupCommand (name : String) : Option String :=
  sCommands.find? (fun c => c = name)

/-- Mutable state of a `UdpExample` session: the socket and the
link-security flag (`mLinkSecurityEnabled`, initially true). -/
structure UdpExampleState where
  socket : UdpSocketState
  linkSecurityEnabled : Bool
deriving DecidableEq, Repr

/-- Transport oracles for one dispatched command. -/
structure Env where
  transport : TransportEnv
  udpSend : SendEnv
deriving DecidableEq, Repr

/-- `UdpExample::Process`: the dispatcher. `error` is initialised to
`OT_ERROR_INVALID_ARGS`; with no arguments it runs `ProcessHelp` under
`IgnoreError` (which leaves `error` untouched) and exits; otherwise it looks
the first token up in the table, failing with `OT_ERROR_INVALID_COMMAND` on
no match, and else invokes the matched handler on the remaining tokens,
propagating its result. Returns the error and the output lines. -/
def process (st : UdpExampleState) (env : Env) (args : List String) :
    OtError × List String :=
  match args with
  | [] => (.invalidArgs, (processHelp []).2)
  | name :: rest =>
    match lookupCommand name with
    | Option.none => (.invalidCommand, [])
    | some cmd =>
      if cmd = "bind" then ((processBind env.transport rest).error, [])
      else if cmd = "close" then ((processClose env.transport rest).1, [])
      else if cmd = "connect" then ((processConnect env.transport rest).error, [])
      else if cmd = "help" then processHelp rest
      else if cmd = "linksecurity" then
        ((processLinkSecurity st.linkSecurityEnabled rest).1,
          (processLinkSecurity st.linkSecurityEnabled rest).2.2)
      else if cmd = "open" then ((processOpen st.socket rest).1, [])
      else ((processSend env.udpSend rest).error, [])

/-- A received datagram as the receive notifier sees it: the full message
bytes (`otMessageGetLength` is their count) and the payload offset
(`otMessageGetOffset`). -/
structure RxMessage where
  bytes : List Nat
  offset : Nat
deriving DecidableEq, Repr

/-- `UdpExample::HandleUdpReceive`: print the payload length (total length
minus offset, as a C `int`), the sender address and port, then read the
payload into a 1500-byte local buffer (at most 1499 bytes read), NUL
terminate it and print it as a C string; the fragments form one output
line. The peer address is kept in its textual form (its rendering by
`OutputIp6Address`). -/
def handleUdpReceive (m : RxMessage) (peerAddr : String) (peerPort : Nat) : String :=
  let s1 := toString ((m.bytes.length : Int) - (m.offset : Int)) ++ " bytes from "
  let s2 := s1 ++ peerAddr
  let s3 := s2 ++ " " ++ toString peerPort ++ " "
  let buf := (m.bytes.drop m.offset).take 1499
  let text := natsToString (buf.takeWhile (fun b => b ≠ 0))
  s3 ++ text

/-- Specification-side shape of the receive notifier's output line:
`"<payloadLength> bytes from <senderAddress> <senderPort> <payloadAsText>"`. -/
def rxLine (len : Int) (addr : String) (port : Nat) (text : String) : String :=
  toString len ++ " bytes from " ++ addr ++ " " ++ toString port ++ " " ++ text

/-- Specification-side displayed payload text: the payload truncated to the
1499 bytes the local buffer can hold, cut at the first NUL byte as printing
a C string does. -/
def displayedPayload (m : RxMessage) : String :=
  natsToString (((m.bytes.drop m.offset).take 1499).takeWhile (fun b => b ≠ 0))

end OtCli

namespace OtCli

/-! ## Proofs -/

lemma nextAutoChar_alphabet : ∀ j < 62,
    nextAutoChar (autoAlphabet.getD j 0) = autoAlphabet.getD ((j + 1) % 62) 0 := by
  decide

lemma cycleByte_succ (i : Nat) : cycleByte (i + 1) = nextAutoChar (cycleByte i) := by
  have h62 : i % 62 < 62 := Nat.mod_lt _ (by norm_num)
  have h := nextAutoChar_alphabet (i % 62) h62
  have hmod : (i + 1) % 62 = (i % 62 + 1) % 62 := by omega
  unfold cycleByte
  rw [hmod, ← h]

lemma autoSeqFrom_cycle : ∀ (n i : Nat),
    autoSeqFrom (cycleByte i) n = (List.range n).map (fun j => cycleByte (i + j)) := by
  intro n
  induction n with
  | zero => intro i; rfl
  | succ n ih =>
    intro i
    have step : autoSeqFrom (cycleByte i) (n + 1)
        = cycleByte i :: autoSeqFrom (cycleByte (i + 1)) n := by
      rw [autoSeqFrom, cycleByte_succ]
    rw [step, ih (i + 1), List.range_succ_eq_map, List.map_cons, List.map_map]
    refine congrArg (fun t => _ :: t) ?_
    refine List.map_congr_left ?_
    intro j _
    exact congrArg cycleByte (by omega)

lemma prepareAutoGeneratedPayloadFrom_ok : ∀ (n : Nat) (cap : Nat) (msg : List Nat)
    (c : Nat), msg.length + n ≤ cap →
    prepareAutoGeneratedPayloadFrom cap msg c n = (.none, msg ++ autoSeqFrom c n) := by
  intro n
  induction n with
  | zero => intro cap msg c _; simp [prepareAutoGeneratedPayloadFrom, autoSeqFrom]
  | succ n ih =>
    intro cap msg c h
    have happ : otMessageAppend cap msg [c] = .ok (msg ++ [c]) := by
      unfold otMessageAppend
      rw [if_pos (by simp; omega)]
    rw [prepareAutoGeneratedPayloadFrom, happ]
    have hlen : (msg ++ [c]).length + n ≤ cap := by simp; omega
    dsimp only
    rw [ih cap (msg ++ [c]) (nextAutoChar c) hlen, autoSeqFrom]
    simp

/-- C2: for every length L in [0, 65535] (and enough buffer capacity for the
appends to succeed), `PrepareAutoGeneratedPayload` appends exactly L bytes to
the message, byte i of the appended run being position `i % 62` of the cycle
`'0'-'9'`, `'A'-'Z'`, `'a'-'z'` (so the run starts at `'0'` and wraps back to
`'0'` after `'z'`); the appended run is the fixed function
`(List.range L).map cycleByte` of L alone, independent of the prior message
content, prior calls, or any session state. -/
theorem c2_auto_payload_cycle (L cap : Nat) (msg : List Nat)
    (hL : L ≤ 65535) (hcap : msg.length + L ≤ cap) :
    prepareAutoGeneratedPayload cap msg L = (.none, msg ++ (List.range L).map cycleByte) := by
  have _hL := hL
  have h0 : (48 : Nat) = cycleByte 0 := by decide
  unfold prepareAutoGeneratedPayload
  rw [prepareAutoGeneratedPayloadFrom_ok L cap msg 48 hcap, h0, autoSeqFrom_cycle]
  simp

/-- Witness for C2 at L = 10: the builder appends exactly the ten bytes
`"0123456789"` to an empty message. -/
theorem c2_auto_payload_cycle_witness :
    prepareAutoGeneratedPayload 16 [] 10 = (.none, [] ++ (List.range 10).map cycleByte)
      ∧ (List.range 10).map cycleByte = strBytes "0123456789" :=
  ⟨c2_auto_payload_cycle 10 16 [] (by norm_num) (by simp), by decide⟩

lemma hexVal_lt16 {b v : Nat} (h : hexVal b = some v) : v < 16 := by
  unfold hexVal at h
  split_ifs at h with h1 h2 h3 <;> simp_all <;> omega

lemma hexDigitByte_toLower {b v : Nat} (h : hexVal b = some v) :
    hexDigitByte v = toLowerByte b := by
  unfold hexVal at h
  unfold hexDigitByte toLowerByte
  split_ifs at h with h1 h2 h3 <;> simp_all <;> split_ifs <;> omega

lemma decodePairs_cons_inv {a b : Nat} {t bs : List Nat}
    (h : decodePairs (a :: b :: t) = some bs) :
    ∃ x y rest, hexVal a = some x ∧ hexVal b = some y ∧
      decodePairs t = some rest ∧ bs = (16 * x + y) :: rest := by
  unfold decodePairs at h
  cases hva : hexVal a with
  | none => rw [hva] at h; simp at h
  | some x =>
    rw [hva] at h
    cases hvb : hexVal b with
    | none => rw [hvb] at h; simp at h
    | some y =>
      rw [hvb] at h
      cases hdt : decodePairs t with
      | none => rw [hdt] at h; simp at h
      | some rest =>
        rw [hdt] at h
        simp at h
        exact ⟨x, y, rest, rfl, rfl, rfl, h.symm⟩

lemma decodePairs_length : ∀ (s bs : List Nat), decodePairs s = some bs →
    2 * bs.length = s.length
  | [], bs, h => by
    unfold decodePairs at h
    simp at h
    subst h
    simp
  | [_], bs, h => by unfold decodePairs at h; simp at h
  | _ :: _ :: t, bs, h => by
    obtain ⟨x, y, rest, _, _, hdt, hbs⟩ := decodePairs_cons_inv h
    subst hbs
    have ih := decodePairs_length t rest hdt
    simp [List.length_cons]
    omega

lemma decodePairs_allHex : ∀ (s bs : List Nat), decodePairs s = some bs →
    ∀ c ∈ s, hexVal c ≠ Option.none
  | [], _, _ => by simp
  | [_], bs, h => by unfold decodePairs at h; simp at h
  | a :: b :: t, bs, h => by
    obtain ⟨x, y, rest, hva, hvb, hdt, _⟩ := decodePairs_cons_inv h
    intro c hc
    have ih := decodePairs_allHex t rest hdt
    simp only [List.mem_cons] at hc
    rcases hc with rfl | rfl | hc
    · rw [hva]; simp
    · rw [hvb]; simp
    · exact ih c hc

lemma decodePairs_exists : ∀ (s : List Nat), s.length % 2 = 0 →
    (∀ c ∈ s, hexVal c ≠ Option.none) → ∃ bs, decodePairs s = some bs
  | [], _, _ => ⟨[], rfl⟩
  | [_], h, _ => by simp at h
  | a :: b :: t, hm, hall => by
    have ht : t.length % 2 = 0 := by simp [List.length_cons] at hm; omega
    obtain ⟨rest, hdt⟩ := decodePairs_exists t ht (fun c hc => hall c (by simp [hc]))
    cases hva : hexVal a with
    | none => exact absurd hva (hall a (by simp))
    | some x =>
      cases hvb : hexVal b with
      | none => exact absurd hvb (hall b (by simp))
      | some y =>
        exact ⟨(16 * x + y) :: rest, by simp [decodePairs, hva, hvb, hdt]⟩

lemma decodePairs_append_inv : ∀ (s1 s2 bs : List Nat), s1.length % 2 = 0 →
    decodePairs (s1 ++ s2) = some bs →
    ∃ b1 b2, decodePairs s1 = some b1 ∧ decodePairs s2 = some b2 ∧ bs = b1 ++ b2
  | [], s2, bs, _, h => ⟨[], bs, rfl, h, rfl⟩
  | [_], _, _, hm, _ => by simp at hm
  | a :: b :: t, s2, bs, hm, h => by
    have h2 : decodePairs (a :: b :: (t ++ s2)) = some bs := by simpa using h
    obtain ⟨x, y, rest, hva, hvb, hdt, hbs⟩ := decodePairs_cons_inv h2
    have ht : t.length % 2 = 0 := by simp [List.length_cons] at hm; omega
    obtain ⟨b1, b2, hb1, hb2, hsplit⟩ := decodePairs_append_inv t s2 rest ht hdt
    refine ⟨(16 * x + y) :: b1, b2, ?_, hb2, ?_⟩
    · simp [decodePairs, hva, hvb, hb1]
    · rw [hbs, hsplit]; rfl

lemma decodePairs_encode : ∀ (s bs : List Nat), decodePairs s = some bs →
    hexEncode bs = s.map toLowerByte
  | [], bs, h => by
    unfold decodePairs at h
    simp at h
    subst h
    simp [hexEncode]
  | [_], bs, h => by unfold decodePairs at h; simp at h
  | a :: b :: t, bs, h => by
    obtain ⟨x, y, rest, hva, hvb, hdt, hbs⟩ := decodePairs_cons_inv h
    subst hbs
    have ih := decodePairs_encode t rest hdt
    have hx := hexVal_lt16 hva
    have hy := hexVal_lt16 hvb
    have h1 : (16 * x + y) / 16 = x := by omega
    have h2 : (16 * x + y) % 16 = y := by omega
    simp [hexEncode, hexEncodeByte, h1, h2, hexDigitByte_toLower hva,
      hexDigitByte_toLower hvb] at ih ⊢
    exact ih

lemma decodePairs_of_badHex {s : List Nat} (h : badHex s) :
    decodePairs s = Option.none := by
  cases hd : decodePairs s with
  | none => rfl
  | some bs =>
    rcases h with hodd | ⟨b, hb, hnone⟩
    · have := decodePairs_length s bs hd
      omega
    · exact absurd hnone (decodePairs_allHex s bs hd b hb)

lemma badHex_drop {s bs : List Nat} (hlen : s.length > 100)
    (hdp : decodePairs (s.take 100) = some bs) (hbad : badHex s) :
    badHex (s.drop 100) := by
  rcases hbad with hodd | ⟨b, hb, hnone⟩
  · left
    simp only [List.length_drop]
    omega
  · right
    have hmem : b ∈ s.take 100 ++ s.drop 100 := by rwa [List.take_append_drop]
    rcases List.mem_append.mp hmem with h1 | h2
    · exact absurd hnone (decodePairs_allHex _ _ hdp b h1)
    · exact ⟨b, h2, hnone⟩

lemma hexLoop_bad : ∀ (fuel : Nat) (s msg : List Nat) (cap : Nat),
    s.length < fuel → badHex s → msg.length + s.length ≤ cap →
    prepareHexLoop cap fuel msg s = (.parse, msg ++ goodChunksBytes fuel s) := by
  intro fuel
  induction fuel with
  | zero => intro s msg cap h _ _; exact absurd h (Nat.not_lt_zero _)
  | succ fuel ih =>
    intro s msg cap hfuel hbad hcap
    by_cases hlen : s.length > 100
    · cases hdp : decodePairs (s.take 100) with
      | none =>
        have hseg : parseAsHexStringSegment s = (.parse, [], s) := by
          simp [parseAsHexStringSegment, hlen, hdp]
        have hg : goodChunksBytes (fuel + 1) s = [] := by
          simp [goodChunksBytes, hlen, hdp]
        rw [prepareHexLoop, hseg]
        dsimp only
        rw [hg]
        simp
      | some bs =>
        have htl : (s.take 100).length = 100 := by
          simp [List.length_take]
          omega
        have hseg : parseAsHexStringSegment s = (.pending, bs, s.drop 100) := by
          simp [parseAsHexStringSegment, hlen, hdp]
        have hbslen : 2 * bs.length = 100 := by
          have := decodePairs_length _ _ hdp
          rwa [htl] at this
        have happ : otMessageAppend cap msg bs = .ok (msg ++ bs) := by
          unfold otMessageAppend
          rw [if_pos (by omega)]
        have hrec := ih (s.drop 100) (msg ++ bs) cap
          (by simp only [List.length_drop]; omega)
          (badHex_drop hlen hdp hbad)
          (by simp only [List.length_append, List.length_drop]; omega)
        have hg : goodChunksBytes (fuel + 1) s = bs ++ goodChunksBytes fuel (s.drop 100) := by
          simp [goodChunksBytes, hlen, hdp]
        rw [prepareHexLoop, hseg]
        dsimp only
        rw [happ]
        dsimp only
        rw [hrec, hg]
        simp
    · have hdp : decodePairs s = Option.none := decodePairs_of_badHex hbad
      have hseg : parseAsHexStringSegment s = (.parse, [], s) := by
        simp [parseAsHexStringSegment, hlen, hdp]
      have hg : goodChunksBytes (fuel + 1) s = [] := by
        simp [goodChunksBytes, hlen, hdp]
      rw [prepareHexLoop, hseg]
      dsimp only
      rw [hg]
      simp

lemma hexLoop_good : ∀ (fuel : Nat) (s msg bs : List Nat) (cap : Nat),
    s.length < fuel → decodePairs s = some bs → msg.length + s.length ≤ cap →
    prepareHexLoop cap fuel msg s = (.none, msg ++ bs) := by
  intro fuel
  induction fuel with
  | zero => intro s msg bs cap h _ _; exact absurd h (Nat.not_lt_zero _)
  | succ fuel ih =>
    intro s msg bs cap hfuel hdp hcap
    by_cases hlen : s.length > 100
    · have htl : (s.take 100).length = 100 := by
        simp [List.length_take]
        omega
      obtain ⟨b1, b2, hb1, hb2, hsplit⟩ := decodePairs_append_inv (s.take 100)
        (s.drop 100) bs (by rw [htl]) (by rwa [List.take_append_drop])
      have hseg : parseAsHexStringSegment s = (.pending, b1, s.drop 100) := by
        simp [parseAsHexStringSegment, hlen, hb1]
      have hb1len : 2 * b1.length = 100 := by
        have := decodePairs_length _ _ hb1
        rwa [htl] at this
      have happ : otMessageAppend cap msg b1 = .ok (msg ++ b1) := by
        unfold otMessageAppend
        rw [if_pos (by omega)]
      have hrec := ih (s.drop 100) (msg ++ b1) b2 cap
        (by simp only [List.length_drop]; omega) hb2
        (by simp only [List.length_append, List.length_drop]; omega)
      rw [prepareHexLoop, hseg]
      dsimp only
      rw [happ]
      dsimp only
      rw [hrec, hsplit]
      simp
    · have hseg : parseAsHexStringSegment s = (.none, bs, []) := by
        simp [parseAsHexStringSegment, hlen, hdp]
      have hbslen : 2 * bs.length = s.length := decodePairs_length _ _ hdp
      have happ : otMessageAppend cap msg bs = .ok (msg ++ bs) := by
        unfold otMessageAppend
        rw [if_pos (by omega)]
      rw [prepareHexLoop, hseg]
      dsimp only
      rw [happ]

/-- C6: on every hex string with an odd number of hex digits or a non-hex
character (and enough capacity that appends are not the failure), the hex
payload builder returns a parse failure — it does not silently truncate —
and at that point the message holds exactly the prior content plus the
bytes decoded by the earlier successful segment iterations
(`goodPrefixBytes`), with no bytes from the failing segment. -/
theorem c6_hex_malformed_parse_failure (s : List Nat) (cap : Nat) (msg : List Nat)
    (hbad : badHex s) (hcap : msg.length + s.length ≤ cap) :
    prepareHexStringPaylod cap msg s = (.parse, msg ++ goodPrefixBytes s) := by
  unfold prepareHexStringPaylod goodPrefixBytes
  exact hexLoop_bad (s.length + 1) s msg cap (by omega) hbad hcap

/-- Witness for C6: the odd-length string `"123"` fails with a parse error
and appends nothing, and a 102-digit string whose tail segment is malformed
keeps exactly the 50 bytes of its first (valid) 100-digit segment. -/
theorem c6_hex_malformed_parse_failure_witness :
    prepareHexStringPaylod 10 [] (strBytes "123")
        = (.parse, [] ++ goodPrefixBytes (strBytes "123"))
      ∧ goodPrefixBytes (strBytes "123") = []
      ∧ prepareHexStringPaylod 200 [7] (strBytes (String.mk (List.replicate 100 'a') ++ "zz"))
          = (.parse, [7] ++ goodPrefixBytes (strBytes (String.mk (List.replicate 100 'a') ++ "zz")))
      ∧ goodPrefixBytes (strBytes (String.mk (List.replicate 100 'a') ++ "zz"))
          = List.replicate 50 170 :=
  ⟨c6_hex_malformed_parse_failure (strBytes "123") 10 [] (by decide) (by decide),
    by decide,
    c6_hex_malformed_parse_failure
      (strBytes (String.mk (List.replicate 100 'a') ++ "zz")) 200 [7]
      (by decide) (by decide),
    by decide⟩

/-- C7: for every valid hex string of even length, the builder succeeds and
appends exactly `length / 2` bytes whose lowercase hex re-encoding is the
case-insensitive normalisation of the input; in particular `send` with
tokens `::1 1234 -x 48656c6c6f` hands the transport a message of exactly
the 5 bytes spelling `"Hello"`. -/
theorem c7_hex_roundtrip :
    (∀ (s : List Nat) (cap : Nat) (msg : List Nat),
      s.length % 2 = 0 → (∀ c ∈ s, hexVal c ≠ Option.none) →
      msg.length + s.length ≤ cap →
      ∃ bs, decodePairs s = some bs ∧
        prepareHexStringPaylod cap msg s = (.none, msg ++ bs) ∧
        2 * bs.length = s.length ∧
        hexEncode bs = s.map toLowerByte)
    ∧ (processSend ⟨true, 100, true⟩ ["::1", "1234", "-x", "48656c6c6f"]).sentMsg
        = some (strBytes "Hello")
    ∧ (strBytes "Hello").length = 5 := by
  refine ⟨?_, by decide, by decide⟩
  intro s cap msg hm hall hcap
  obtain ⟨bs, hdp⟩ := decodePairs_exists s hm hall
  refine ⟨bs, hdp, ?_, decodePairs_length s bs hdp, decodePairs_encode s bs hdp⟩
  unfold prepareHexStringPaylod
  exact hexLoop_good (s.length + 1) s msg bs cap (by omega) hdp hcap

/-- Witness for C7 on the string `"48656c6c6f"`: the builder appends
exactly 5 bytes that re-encode to the input. -/
theorem c7_hex_roundtrip_witness :
    ∃ bs, decodePairs (strBytes "48656c6c6f") = some bs ∧
      prepareHexStringPaylod 10 [] (strBytes "48656c6c6f") = (.none, [] ++ bs) ∧
      2 * bs.length = (strBytes "48656c6c6f").length ∧
      hexEncode bs = (strBytes "48656c6c6f").map toLowerByte :=
  c7_hex_roundtrip.1 (strBytes "48656c6c6f") 10 [] (by decide) (by decide) (by decide)

/-- C5: if the session's socket is already open, `open` fails with
`OT_ERROR_ALREADY` and leaves the socket unchanged; if it is not open,
`open` succeeds and opens it with `HandleUdpReceive` registered as callback
and the session as callback context; consequently a second consecutive
`open` without an intervening `close` fails with `OT_ERROR_ALREADY`. -/
theorem c5_open_semantics (sock : UdpSocketState) (args args2 : List String) :
    (sock.isOpen = true → processOpen sock args = (.already, sock))
    ∧ (sock.isOpen = false →
        processOpen sock args
          = (.none, ⟨true, some .handleUdpReceiveWithSessionContext⟩))
    ∧ (sock.isOpen = false →
        (processOpen (processOpen sock args).2 args2).1 = .already) := by
  refine ⟨?_, ?_, ?_⟩ <;> intro h <;>
    simp [processOpen, otUdpIsOpen, otUdpOpen, h]

/-- Witness for C5 on concrete sockets: an open socket is rejected, a closed
one is opened with the callback registered, and a double open fails. -/
theorem c5_open_semantics_witness :
    processOpen ⟨true, some .handleUdpReceiveWithSessionContext⟩ []
        = (.already, ⟨true, some .handleUdpReceiveWithSessionContext⟩)
      ∧ processOpen ⟨false, Option.none⟩ []
        = (.none, ⟨true, some .handleUdpReceiveWithSessionContext⟩)
      ∧ (processOpen (processOpen ⟨false, Option.none⟩ []).2 []).1 = .already :=
  ⟨(c5_open_semantics ⟨true, some .handleUdpReceiveWithSessionContext⟩ [] []).1 rfl,
    (c5_open_semantics ⟨false, Option.none⟩ [] []).2.1 rfl,
    (c5_open_semantics ⟨false, Option.none⟩ [] []).2.2 rfl⟩

/-- C4 counterexample: the `close` handler invoked with one argument — a
count the CLI surface does not accept (`close` takes none) — still performs
the transport call and does not fail with `InvalidArguments`: the handler
ignores its arguments, refuting the claim for the socket-session handlers
other than `bind` and `connect`. -/
theorem c4_counterexample :
    (processClose ⟨.none, .none, .none⟩ ["x"]).2 = true
      ∧ (processClose ⟨.none, .none, .none⟩ ["x"]).1 ≠ OtError.invalidArgs := by
  refine ⟨rfl, by decide⟩

/-- C4 amended: the count-validation fail-fast holds for `bind` and
`connect` — any argument count other than two fails with
`InvalidArguments`, with no token semantically parsed and no transport call
— while `open` and `close` ignore their argument lists entirely (identical
outcome whatever the arguments) and `linksecurity` reads only the first
argument (extra arguments do not change the outcome). -/
theorem c4_amended_count_validation (env : TransportEnv) (args : List String)
    (h : args.length ≠ 2) :
    processBind env args = ⟨.invalidArgs, 0, false⟩
    ∧ processConnect env args = ⟨.invalidArgs, 0, false⟩
    ∧ (∀ env2 args2, processClose env2 args2 = processClose env2 [])
    ∧ (∀ sock args2 args3, processOpen sock args2 = processOpen sock args3)
    ∧ (∀ flag a rest rest2,
        processLinkSecurity flag (a :: rest) = processLinkSecurity flag (a :: rest2)) := by
  refine ⟨?_, ?_, fun _ _ => rfl, fun _ _ _ => rfl, fun _ _ _ _ => rfl⟩ <;>
    simp [processBind, processConnect, h]

/-- Witness for C4 (amended) at three arguments: `bind` and `connect`
reject the count before parsing, and `close` with an extra argument behaves
as with none. -/
theorem c4_amended_count_validation_witness :
    processBind ⟨.none, .none, .none⟩ ["::1", "5", "x"] = ⟨.invalidArgs, 0, false⟩
      ∧ processConnect ⟨.none, .none, .none⟩ ["::1", "5", "x"] = ⟨.invalidArgs, 0, false⟩
      ∧ processClose ⟨.none, .none, .none⟩ ["y"] = processClose ⟨.none, .none, .none⟩ [] :=
  ⟨(c4_amended_count_validation ⟨.none, .none, .none⟩ ["::1", "5", "x"] (by decide)).1,
    (c4_amended_count_validation ⟨.none, .none, .none⟩ ["::1", "5", "x"] (by decide)).2.1,
    (c4_amended_count_validation ⟨.none, .none, .none⟩ ["::1", "5", "x"]
      (by decide)).2.2.1 ⟨.none, .none, .none⟩ ["y"]⟩

lemma processSendAfterDest_ownership (env : SendEnv) (args : List String)
    (i : Nat) (peer : Option (String × Nat))
    (h : (processSendAfterDest env args i peer).allocated = true) :
    ((processSendAfterDest env args i peer).transferred = true
        ∧ (processSendAfterDest env args i peer).freeCalls = 0)
    ∨ ((processSendAfterDest env args i peer).transferred = false
        ∧ (processSendAfterDest env args i peer).freeCalls = 1) := by
  by_cases ha : env.allocOk
  · cases hb : buildPayload env.cap args i with
    | error e =>
      right
      simp [processSendAfterDest, ha, hb]
    | ok m =>
      by_cases hs : env.sendOk
      · left
        simp [processSendAfterDest, ha, hb, hs]
      · right
        simp [processSendAfterDest, ha, hb, hs]
  · simp [processSendAfterDest, ha] at h

/-- C3: the ownership invariant of `ProcessSend`: whenever a message was
successfully allocated, either ownership transferred to the transport layer
through a successful `otUdpSend` and `otMessageFree` never runs, or the
message is freed exactly once (any failure at or before the send call, the
failed send included) — never both, never neither. -/
theorem c3_send_ownership (env : SendEnv) (args : List String)
    (h : (processSend env args).allocated = true) :
    ((processSend env args).transferred = true ∧ (processSend env args).freeCalls = 0)
    ∨ ((processSend env args).transferred = false
        ∧ (processSend env args).freeCalls = 1) := by
  unfold processSend at h ⊢
  by_cases h1 : 1 ≤ args.length ∧ args.length ≤ 4
  · rw [if_pos h1] at h ⊢
    by_cases h2 : args.length > 2
    · rw [if_pos h2] at h ⊢
      cases hd : parseDest args with
      | error e =>
        rw [hd] at h
        simp at h
      | ok d =>
        rw [hd] at h
        exact processSendAfterDest_ownership env args 2 (some d) h
    · rw [if_neg h2] at h ⊢
      exact processSendAfterDest_ownership env args 0 Option.none h
  · rw [if_neg h1] at h
    simp at h

/-- Witness for C3 on a run that allocates and sends successfully, applied
to a concrete environment and argument list. -/
theorem c3_send_ownership_witness :
    ((processSend ⟨true, 100, true⟩ ["hi"]).transferred = true
        ∧ (processSend ⟨true, 100, true⟩ ["hi"]).freeCalls = 0)
    ∨ ((processSend ⟨true, 100, true⟩ ["hi"]).transferred = false
        ∧ (processSend ⟨true, 100, true⟩ ["hi"]).freeCalls = 1) :=
  c3_send_ownership ⟨true, 100, true⟩ ["hi"] (by decide)

lemma parseAsIp6Address_error {s : String} {e : OtError}
    (h : parseAsIp6Address s = .error e) : e = .invalidArgs := by
  unfold parseAsIp6Address at h
  split_ifs at h <;> simp_all

lemma parseAsUint16_error {s : String} {e : OtError}
    (h : parseAsUint16 s = .error e) : e = .invalidArgs := by
  unfold parseAsUint16 at h
  split_ifs at h <;> simp_all

lemma parseDest_error {args : List String} {e : OtError}
    (h : parseDest args = .error e) : e = .invalidArgs := by
  unfold parseDest at h
  cases h1 : parseAsIp6Address (args.getD 0 "") with
  | error e1 =>
    rw [h1] at h
    simp at h
    rw [← h]
    exact parseAsIp6Address_error h1
  | ok a =>
    rw [h1] at h
    cases h2 : parseAsUint16 (args.getD 1 "") with
    | error e2 =>
      rw [h2] at h
      simp at h
      rw [← h]
      exact parseAsUint16_error h2
    | ok p =>
      rw [h2] at h
      simp at h

/-- C9: argument validation order of `ProcessSend`: an argument count
outside `[1, 4]` fails with `InvalidArguments` (no allocation, no free);
with more than two tokens the first two are parsed strictly as destination
before anything else, and a destination parse failure fails with
`InvalidArguments` before the message is allocated; when the argument count
is acceptable and the destination (if present) parses, an allocation
failure fails with `OutOfBuffers` before any payload byte is appended (no
message ever reaches the send call, nothing is freed). -/
theorem c9_send_arg_validation (env : SendEnv) (args : List String) :
    ((args.length = 0 ∨ args.length > 4) →
      processSend env args
        = { error := .invalidArgs, allocated := false, transferred := false,
            freeCalls := 0, sentMsg := Option.none, peer := Option.none })
    ∧ (∀ e, 2 < args.length → args.length ≤ 4 → parseDest args = .error e →
        e = .invalidArgs ∧ processSend env args
          = { error := .invalidArgs, allocated := false, transferred := false,
              freeCalls := 0, sentMsg := Option.none, peer := Option.none })
    ∧ (1 ≤ args.length → args.length ≤ 4 →
        (2 < args.length → ∃ d, parseDest args = .ok d) →
        env.allocOk = false →
        (processSend env args).error = .noBufs
          ∧ (processSend env args).allocated = false
          ∧ (processSend env args).freeCalls = 0
          ∧ (processSend env args).sentMsg = Option.none) := by
  refine ⟨?_, ?_, ?_⟩
  · intro h
    unfold processSend
    rw [if_neg (by omega)]
  · intro e h2 h4 hd
    have he : e = .invalidArgs := parseDest_error hd
    subst he
    refine ⟨rfl, ?_⟩
    unfold processSend
    rw [if_pos (by omega), if_pos (by omega), hd]
  · intro h1 h4 hdest halloc
    unfold processSend
    rw [if_pos (by omega)]
    by_cases h2 : args.length > 2
    · obtain ⟨d, hd⟩ := hdest h2
      rw [if_pos h2, hd]
      simp [processSendAfterDest, halloc]
    · rw [if_neg h2]
      simp [processSendAfterDest, halloc]

/-- Witness for C9 at concrete inputs: five arguments are rejected with
`InvalidArguments`; a bad address with three arguments fails with
`InvalidArguments` before allocation; and with a failing allocator the
command fails with `OutOfBuffers` without freeing or sending anything. -/
theorem c9_send_arg_validation_witness :
    (processSend ⟨true, 100, true⟩ ["a", "b", "c", "d", "e"]
        = { error := .invalidArgs, allocated := false, transferred := false,
            freeCalls := 0, sentMsg := Option.none, peer := Option.none })
    ∧ (OtError.invalidArgs = OtError.invalidArgs
        ∧ processSend ⟨true, 100, true⟩ ["not-an-ip", "5", "x"]
          = { error := .invalidArgs, allocated := false, transferred := false,
              freeCalls := 0, sentMsg := Option.none, peer := Option.none })
    ∧ ((processSend ⟨false, 100, true⟩ ["hello"]).error = .noBufs
        ∧ (processSend ⟨false, 100, true⟩ ["hello"]).allocated = false
        ∧ (processSend ⟨false, 100, true⟩ ["hello"]).freeCalls = 0
        ∧ (processSend ⟨false, 100, true⟩ ["hello"]).sentMsg = Option.none) :=
  ⟨(c9_send_arg_validation ⟨true, 100, true⟩ ["a", "b", "c", "d", "e"]).1
      (by right; decide),
    (c9_send_arg_validation ⟨true, 100, true⟩ ["not-an-ip", "5", "x"]).2.1
      OtError.invalidArgs (by decide) (by decide) (by rfl),
    (c9_send_arg_validation ⟨false, 100, true⟩ ["hello"]).2.2
      (by decide) (by decide) (by intro hc; exact absurd hc (by decide)) rfl⟩

/-- C10: a two-token `send` whose first token is none of the markers `-s`,
`-x`, `-t` appends the first token verbatim as the text payload and
silently ignores the second token: the invocation is not rejected, the
message handed to the transport is exactly the first token's bytes, and the
destination is the zero-initialised message info, i.e. the session's
previously connected peer. -/
theorem c10_two_token_text_payload (env : SendEnv) (t0 t1 : String)
    (h0s : t0 ≠ "-s") (h0x : t0 ≠ "-x") (h0t : t0 ≠ "-t")
    (halloc : env.allocOk = true) (hsend : env.sendOk = true)
    (hcap : (strBytes t0).length ≤ env.cap) :
    processSend env [t0, t1]
      = { error := .none, allocated := true, transferred := true, freeCalls := 0,
          sentMsg := some (strBytes t0), peer := Option.none } := by
  unfold processSend
  rw [if_pos (by simp), if_neg (by simp)]
  unfold processSendAfterDest
  rw [halloc]
  have hb : buildPayload env.cap [t0, t1] 0 = .ok (strBytes t0) := by
    unfold buildPayload
    simp only [List.getD_cons_zero]
    rw [if_neg h0s, if_neg h0x, if_neg h0t]
    rw [if_pos (by simp)]
    simp only [List.getD_cons_zero]
    unfold otMessageAppend
    rw [if_pos (by simpa using hcap)]
    simp
  rw [hb]
  simp [hsend]

/-- Witness for C10: `send hello world` with a working transport sends the
message `"hello"` to the connected peer and ignores `"world"`. -/
theorem c10_two_token_text_payload_witness :
    processSend ⟨true, 100, true⟩ ["hello", "world"]
      = { error := .none, allocated := true, transferred := true, freeCalls := 0,
          sentMsg := some (strBytes "hello"), peer := Option.none } :=
  c10_two_token_text_payload ⟨true, 100, true⟩ "hello" "world"
    (by decide) (by decide) (by decide) rfl rfl (by decide)

/-- C8: for every received datagram the notifier emits exactly one line of
the form `"<payloadLength> bytes from <senderAddress> <senderPort>
<payloadAsText>"`, where the printed payload length is the total message
length minus the header offset; the displayed text is the payload read into
the bounded 1500-byte local buffer (at most 1499 bytes, so its length never
exceeds 1499) and is the whole payload whenever it fits and has no NUL
byte, while the printed payload length is computed from the lengths alone
and is therefore unaffected by that truncation; in particular a datagram
with payload `"Hi"` from `[::1]:1234` yields the line
`"2 bytes from ::1 1234 Hi"`. -/
theorem c8_receive_line (m : RxMessage) (addr : String) (port : Nat) :
    handleUdpReceive m addr port
      = rxLine ((m.bytes.length : Int) - (m.offset : Int)) addr port (displayedPayload m)
    ∧ ((m.bytes.drop m.offset).length ≤ 1499 →
        (∀ b ∈ m.bytes.drop m.offset, b ≠ 0) →
        displayedPayload m = natsToString (m.bytes.drop m.offset))
    ∧ (displayedPayload m).length ≤ 1499
    ∧ handleUdpReceive ⟨strBytes "Hi", 0⟩ "::1" 1234 = "2 bytes from ::1 1234 Hi" := by
  refine ⟨rfl, ?_, ?_, by decide⟩
  · intro hlen hnz
    unfold displayedPayload
    rw [List.take_of_length_le hlen]
    rw [List.takeWhile_eq_self_iff.mpr (by simpa using hnz)]
  · unfold displayedPayload natsToString
    have h1 := (List.takeWhile_prefix
      (l := (m.bytes.drop m.offset).take 1499) (fun b => b ≠ 0)).length_le
    have h2 : ((m.bytes.drop m.offset).take 1499).length ≤ 1499 := by
      simp [List.length_take]
    show ((((m.bytes.drop m.offset).take 1499).takeWhile (fun b => b ≠ 0)).map
      Char.ofNat).length ≤ 1499
    rw [List.length_map]
    omega

/-- Witness for C8 on a payload that fits the buffer and has no NUL byte:
the displayed text is the whole payload. -/
theorem c8_receive_line_witness :
    displayedPayload ⟨strBytes "Hi", 0⟩ = natsToString ((strBytes "Hi").drop 0) :=
  (c8_receive_line ⟨strBytes "Hi", 0⟩ "::1" 1234).2.1 (by decide) (by decide)

/-- C1 counterexample: invoking the dispatcher with an empty argument list
does not return success: `error` is initialised to `OT_ERROR_INVALID_ARGS`
and `IgnoreError(ProcessHelp(0, nullptr))` leaves it untouched, so the
command names are printed but `OT_ERROR_INVALID_ARGS` is returned. -/
theorem c1_counterexample :
    (process ⟨⟨false, Option.none⟩, true⟩
        ⟨⟨.none, .none, .none⟩, ⟨true, 100, true⟩⟩ []).1 = OtError.invalidArgs
      ∧ (process ⟨⟨false, Option.none⟩, true⟩
          ⟨⟨.none, .none, .none⟩, ⟨true, 100, true⟩⟩ []).1 ≠ OtError.none := by
  exact ⟨rfl, by decide⟩

/-- C1 amended: for every invocation of `Process` with an empty argument
list, the names of all registered commands are printed, one per line, in
the table's declared order, but the dispatcher returns `InvalidArguments`
rather than success (the listing through the named `help` command does
succeed). -/
theorem c1_empty_args_help_listing (st : UdpExampleState) (env : Env) :
    process st env [] = (.invalidArgs, sCommands)
      ∧ processHelp [] = (.none, sCommands) :=
  ⟨rfl, rfl⟩

end OtCli
